import Mathlib

/-!
Shallow embedding of the auto-link-suggestions plugin core
(note-title autocompletion and ranking for a document editor).

The embedding follows the richest source variant: the `NoteTitleSuggester`
class (title index, `onTrigger`, `getSuggestions`, `calculateScore`) and the
plugin's usage-statistics maintenance (`trackNoteSelection`,
`updateUsageStatsPath`, `cleanupUsageStats`).

Modelling conventions:
- JS strings used for matching are `List Char`; map keys (file paths) are
  `String`.
- JS numbers are `ℚ` (timestamps, settings weights) or `Nat` (counts).
- The title index and the usage-stats object are total functions
  `String → Option _`; JS `delete`/assignment become pointwise updates.
- JS truthiness tests that the code performs (`stats?.lastUsed`,
  `file.stat.ctime`, `cache?.frontmatter?.aliases`) are modelled explicitly;
  in particular a single empty-string alias value is falsy.
-/

/-- A usage record: selection count and last-selection timestamp in ms
(`{count, lastUsed}` in the source). -/
structure UsageRecord where
  count : Nat
  lastUsed : ℚ
  deriving DecidableEq

/-- A front-matter scalar: a string, or some non-string YAML value (the
source skips non-strings via a `typeof alias === 'string'` check). -/
inductive FmValue where
  | str : List Char → FmValue
  | nonStr : FmValue
  deriving DecidableEq

/-- The front-matter `aliases` field: a single scalar or an array of
scalars (the source distinguishes these with `Array.isArray`). -/
inductive FmAliases where
  | single : FmValue → FmAliases
  | arr : List FmValue → FmAliases
  deriving DecidableEq

/-- A vault file as the suggester sees it: path (identity key), basename
(display title), extension, creation time `stat.ctime`, and the
front-matter aliases field (absent when there is no cache entry). -/
structure NoteFile where
  path : String
  basename : List Char
  extension : String
  ctime : ℚ
  aliases : Option FmAliases
  deriving DecidableEq

/-- A suggestion produced by `getSuggestions`: display text (title or
alias) plus the target file. -/
structure Suggestion where
  title : List Char
  file : NoteFile
  deriving DecidableEq

/-- The plugin settings bag (`AutoLinkSettings` in the source). -/
structure AutoLinkSettings where
  minTriggerLength : Nat
  maxSuggestions : Nat
  caseSensitive : Bool
  matchStart : Bool
  includeAliases : Bool
  showPath : Bool
  enableUsageRanking : Bool
  enableRecencyBoost : Bool
  recencyWeight : ℚ
  decayDays : ℚ
  enableNewnessBoost : Bool
  newnessBoostDays : ℚ
  newnessBoostStrength : ℚ

/-- The `noteTitles` map of the suggester: file path to file. -/
def TitleIndex : Type := String → Option NoteFile

/-- The `usageStats` object of the plugin: file path to usage record. -/
def UsageStats : Type := String → Option UsageRecord

/-- JS `map.set(key, file)` on the title index. -/
def mapSet (idx : TitleIndex) (key : String) (file : NoteFile) : TitleIndex :=
  fun p => if p = key then some file else idx p

/-- JS `map.delete(key)` on the title index. -/
def mapDelete (idx : TitleIndex) (key : String) : TitleIndex :=
  fun p => if p = key then none else idx p

/-- The vault `create` listener: index markdown files by path. -/
def handleCreate (idx : TitleIndex) (file : NoteFile) : TitleIndex :=
  if file.extension = "md" then mapSet idx file.path file else idx

/-- The vault `rename` listener: for a markdown file, delete the old path
and set the new path, as one handler invocation. -/
def handleRename (idx : TitleIndex) (file : NoteFile) (oldPath : String) : TitleIndex :=
  if file.extension = "md" then mapSet (mapDelete idx oldPath) file.path file else idx

/-- The vault `delete` listener on the title index. -/
def handleDelete (idx : TitleIndex) (path : String) : TitleIndex :=
  mapDelete idx path

/-- JS regex `\S`: any non-whitespace character. -/
def jsNonSpace (c : Char) : Bool := !c.isWhitespace

/-- The `wordStart` scan of `onTrigger`: walk left from the cursor while
the preceding character is non-whitespace. -/
def findWordStart (line : List Char) : Nat → Nat
  | 0 => 0
  | n + 1 => if jsNonSpace (line.getD n ' ') then findWordStart line n else n + 1

/-- Left-to-right scan counting non-overlapping occurrences of the
doubled marker `cc`; `pending` records whether the previous character was
an unconsumed `c`. -/
def countDoubleAux (c : Char) (pending : Bool) : List Char → Nat
  | [] => 0
  | x :: rest =>
    if x = c then
      if pending then countDoubleAux c false rest + 1
      else countDoubleAux c true rest
    else countDoubleAux c false rest

/-- Count the non-overlapping occurrences of the doubled marker `cc` in a
character list, as the global regexes `/\[\[/g` and `/\]\]/g` do. -/
def countDouble (c : Char) (l : List Char) : Nat := countDoubleAux c false l

/-- The trigger information returned by `onTrigger`: start and end columns
of the replacement span and the query text. -/
structure TriggerInfo where
  startCh : Nat
  endCh : Nat
  query : List Char
  deriving DecidableEq

/-- The `onTrigger` member of the suggester, for one line of text and a
cursor column; `minTriggerLength` is the configured minimum. -/
def onTrigger (line : List Char) (cursorPos : Nat) (minTriggerLength : Nat) :
    Option TriggerInfo :=
  let wordStart := findWordStart line cursorPos
  let currentWord := (line.take cursorPos).drop wordStart
  if currentWord.length < minTriggerLength then none
  else
    let beforeCursor := line.take cursorPos
    let linkOpenCount := countDouble '[' beforeCursor
    let linkCloseCount := countDouble ']' beforeCursor
    if linkCloseCount < linkOpenCount then none
    else some ⟨wordStart, cursorPos, currentWord⟩

/-- JS `toLowerCase`, character by character. -/
def foldChars (cs : List Char) : List Char := cs.map Char.toLower

/-- Case folding as `getSuggestions` performs it: lower-case unless the
case-sensitive setting is on. -/
def foldCase (s : AutoLinkSettings) (cs : List Char) : List Char :=
  if s.caseSensitive then cs else foldChars cs

/-- JS `text.startsWith(query)`. -/
def startsWithB : List Char → List Char → Bool
  | _, [] => true
  | [], _ :: _ => false
  | c :: cs, q :: qs => c == q && startsWithB cs qs

/-- JS `text.includes(query)`: contiguous-substring test. -/
def includesB : List Char → List Char → Bool
  | [], query => startsWithB [] query
  | c :: rest, query => startsWithB (c :: rest) query || includesB rest query

/-- The match test of `getSuggestions`: start-anchored when `matchStart`
is set, substring otherwise. Both arguments are already folded. -/
def matchText (s : AutoLinkSettings) (query text : List Char) : Bool :=
  if s.matchStart then startsWithB text query else includesB text query

/-- JS truthiness of `cache?.frontmatter?.aliases`: absent is falsy, a
single empty string is falsy, arrays are truthy. A single non-string
scalar is modelled as truthy; either choice yields no candidate because
the `typeof` check discards it. -/
def aliasesTruthy : Option FmAliases → Bool
  | none => false
  | some (.single (.str s)) => !s.isEmpty
  | some (.single .nonStr) => true
  | some (.arr _) => true

/-- The normalization `Array.isArray(aliases) ? aliases : [aliases]`. -/
def aliasValuesList : Option FmAliases → List FmValue
  | none => []
  | some (.single v) => [v]
  | some (.arr vs) => vs

/-- The alias loop of `getSuggestions` for one file: one candidate per
string alias whose folded form passes the match test, with the alias as
the display title. -/
def aliasCandidates (s : AutoLinkSettings) (query : List Char) (file : NoteFile) :
    List Suggestion :=
  if s.includeAliases && aliasesTruthy file.aliases then
    (aliasValuesList file.aliases).filterMap fun v =>
      match v with
      | .str a => if matchText s query (foldCase s a) then some ⟨a, file⟩ else none
      | .nonStr => none
  else []

/-- The candidate-collection loop of `getSuggestions` over the indexed
files (iteration order of `noteTitles.values()`), before ranking and
truncation: the title candidate when the folded title matches, followed
by the alias candidates. -/
def collectSuggestions (files : List NoteFile) (query : List Char)
    (s : AutoLinkSettings) : List Suggestion :=
  files.flatMap fun file =>
    (if matchText s query (foldCase s file.basename) then
      [(⟨file.basename, file⟩ : Suggestion)]
    else []) ++ aliasCandidates s query file

/-- One day in milliseconds (`24 * 60 * 60 * 1000`). -/
def dayInMs : ℚ := 24 * 60 * 60 * 1000

/-- The `frequencyScore` of `calculateScore`:
`(stats && maxCount > 0) ? stats.count / maxCount : 0`. -/
def frequencyScoreOf (stats : Option UsageRecord) (maxCount : Nat) : ℚ :=
  match stats with
  | some r => if 0 < maxCount then (r.count : ℚ) / (maxCount : ℚ) else 0
  | none => 0

/-- The `recencyScore` of `calculateScore`: the inverse age of the last
use, `recencyValue = 1 / (timeSinceUse + 1)`, normalized by `maxRecency`,
guarded by the recency-boost setting and
`stats?.lastUsed && stats.lastUsed > 0`. -/
def recencyScoreOf (stats : Option UsageRecord) (now maxRecency : ℚ)
    (s : AutoLinkSettings) : ℚ :=
  match stats with
  | some r =>
    if s.enableRecencyBoost ∧ 0 < r.lastUsed then
      if 0 < maxRecency then (1 / (now - r.lastUsed + 1)) / maxRecency else 0
    else 0
  | none => 0

/-- The `decayFactor` of `calculateScore`: once `timeSinceUse` exceeds the
decay threshold, `1 - min(decayPeriod / decayThreshold, 1) * 0.5` with
`decayPeriod = timeSinceUse - decayThreshold`; `1` otherwise and for
records without a positive `lastUsed`. -/
def decayFactorOf (stats : Option UsageRecord) (now decayThreshold : ℚ) : ℚ :=
  match stats with
  | some r =>
    if 0 < r.lastUsed then
      if decayThreshold < now - r.lastUsed then
        1 - min ((now - r.lastUsed - decayThreshold) / decayThreshold) 1 * (1 / 2)
      else 1
    else 1
  | none => 1

/-- The `baseScore` of `calculateScore`: the combination
`frequencyScore * (1 - w) + recencyScore * w` with
`w = recencyWeight / 100` when the recency boost is enabled, plain
frequency otherwise. -/
def baseScoreOf (stats : Option UsageRecord) (now : ℚ) (maxCount : Nat)
    (maxRecency : ℚ) (s : AutoLinkSettings) : ℚ :=
  if s.enableRecencyBoost then
    frequencyScoreOf stats maxCount * (1 - s.recencyWeight / 100) +
      recencyScoreOf stats now maxRecency s * (s.recencyWeight / 100)
  else frequencyScoreOf stats maxCount

/-- The `newnessBoost` of `calculateScore`: guarded by the newness-boost
setting and the truthiness of `file.stat.ctime`; for
`daysSinceCreation = (now - ctime) / dayInMs` at most `newnessBoostDays`,
the boost is `1 + (1 - daysSinceCreation / newnessBoostDays) * strength`. -/
def newnessBoostOf (file : NoteFile) (now : ℚ) (s : AutoLinkSettings) : ℚ :=
  if s.enableNewnessBoost ∧ file.ctime ≠ 0 then
    if (now - file.ctime) / dayInMs ≤ s.newnessBoostDays then
      1 + (1 - ((now - file.ctime) / dayInMs) / s.newnessBoostDays) * s.newnessBoostStrength
    else 1
  else 1

/-- The `effectiveBaseScore` of `calculateScore`:
`baseScore > 0 ? baseScore : 0.01`. -/
def effectiveBaseOf (stats : Option UsageRecord) (now : ℚ) (maxCount : Nat)
    (maxRecency : ℚ) (s : AutoLinkSettings) : ℚ :=
  if 0 < baseScoreOf stats now maxCount maxRecency s then
    baseScoreOf stats now maxCount maxRecency s
  else 1 / 100

/-- The `calculateScore` member of the suggester: effective base score
times decay factor times newness boost. -/
def calculateScore (stats : Option UsageRecord) (file : NoteFile) (now : ℚ)
    (maxCount : Nat) (maxRecency : ℚ) (decayThreshold : ℚ)
    (s : AutoLinkSettings) : ℚ :=
  effectiveBaseOf stats now maxCount maxRecency s *
    decayFactorOf stats now decayThreshold *
    newnessBoostOf file now s

/-- The `maxCount` normalization pass of `getSuggestions` over the
candidate set. -/
def computeMaxCount (usage : UsageStats) (suggestions : List Suggestion) : Nat :=
  suggestions.foldl
    (fun acc sg =>
      match usage sg.file.path with
      | some r => max acc r.count
      | none => acc)
    0

/-- The `maxRecency` normalization pass of `getSuggestions` over the
candidate set. -/
def computeMaxRecency (usage : UsageStats) (suggestions : List Suggestion)
    (now : ℚ) : ℚ :=
  suggestions.foldl
    (fun acc sg =>
      match usage sg.file.path with
      | some r => if 0 < r.lastUsed then max acc (1 / (now - r.lastUsed + 1)) else acc
      | none => acc)
    0

/-- The ranking sort of `getSuggestions`: stable sort by descending score
(the comparator `(a, b) => bScore - aScore`). -/
def sortByScoreDesc (score : Suggestion → ℚ) (l : List Suggestion) : List Suggestion :=
  l.mergeSort fun a b => decide (score b ≤ score a)

/-- The `getSuggestions` member of the suggester: fold the query, collect
matching title and alias candidates, rank them by score when usage
ranking is enabled, and truncate to `maxSuggestions`. -/
def getSuggestions (files : List NoteFile) (usage : UsageStats)
    (rawQuery : List Char) (now : ℚ) (s : AutoLinkSettings) : List Suggestion :=
  let query := foldCase s rawQuery
  let suggestions := collectSuggestions files query s
  let ranked :=
    if s.enableUsageRanking then
      let decayThreshold := s.decayDays * dayInMs
      let maxCount := computeMaxCount usage suggestions
      let maxRecency := computeMaxRecency usage suggestions now
      sortByScoreDesc
        (fun sg =>
          calculateScore (usage sg.file.path) sg.file now maxCount maxRecency
            decayThreshold s)
        suggestions
    else suggestions
  ranked.take s.maxSuggestions

/-- JS assignment `usageStats[key] = r`. -/
def statsSet (stats : UsageStats) (key : String) (r : UsageRecord) : UsageStats :=
  fun p => if p = key then some r else stats p

/-- JS `delete usageStats[key]`. -/
def statsDelete (stats : UsageStats) (key : String) : UsageStats :=
  fun p => if p = key then none else stats p

/-- The `trackNoteSelection` member of the plugin: lazily create a
zero-valued record, then increment the count and stamp `lastUsed`. -/
def trackNoteSelection (stats : UsageStats) (filePath : String) (now : ℚ) :
    UsageStats :=
  let existing := (stats filePath).getD ⟨0, 0⟩
  statsSet stats filePath ⟨existing.count + 1, now⟩

/-- Iterated `trackNoteSelection` of the same path at a sequence of
selection times. -/
def trackMany (stats : UsageStats) (filePath : String) : List ℚ → UsageStats
  | [] => stats
  | t :: ts => trackMany (trackNoteSelection stats filePath t) filePath ts

/-- The `updateUsageStatsPath` member of the plugin (rename maintenance):
if a record exists under the old path, assign it to the new path and then
delete the old path. -/
def updateUsageStatsPath (stats : UsageStats) (oldPath newPath : String) :
    UsageStats :=
  match stats oldPath with
  | some r => statsDelete (statsSet stats newPath r) oldPath
  | none => stats

/-- The `cleanupUsageStats` member of the plugin (delete maintenance). -/
def cleanupUsageStats (stats : UsageStats) (filePath : String) : UsageStats :=
  match stats filePath with
  | some _ => statsDelete stats filePath
  | none => stats

/-! Helper lemmas about the word-start scan of `onTrigger`. -/

/-- The word-start scan never moves right of the cursor. -/
theorem findWordStart_le (line : List Char) : ∀ n, findWordStart line n ≤ n
  | 0 => Nat.le_refl 0
  | n + 1 => by
    show (if jsNonSpace (line.getD n ' ') = true then findWordStart line n else n + 1) ≤ n + 1
    by_cases h : jsNonSpace (line.getD n ' ') = true
    · rw [if_pos h]
      exact Nat.le_trans (findWordStart_le line n) (Nat.le_succ n)
    · rw [if_neg h]

/-- Every column between the word start and the cursor holds a
non-whitespace character. -/
theorem findWordStart_nonSpace (line : List Char) :
    ∀ n i, findWordStart line n ≤ i → i < n → jsNonSpace (line.getD i ' ') = true := by
  intro n
  induction n with
  | zero => intro i _ hi; omega
  | succ n ih =>
    intro i hle hi
    unfold findWordStart at hle
    by_cases h : jsNonSpace (line.getD n ' ') = true
    · simp only [h, if_true] at hle
      rcases Nat.lt_or_ge i n with hlt | hge
      · exact ih i hle hlt
      · have : i = n := by omega
        simpa [this] using h
    · simp only [h] at hle
      simp at hle
      omega

/-- The word start is maximal: it is column zero, or the character just
before it is whitespace. -/
theorem findWordStart_maximal (line : List Char) :
    ∀ n, findWordStart line n = 0 ∨
      jsNonSpace (line.getD (findWordStart line n - 1) ' ') = false := by
  intro n
  induction n with
  | zero => left; rfl
  | succ n ih =>
    show (if jsNonSpace (line.getD n ' ') = true then findWordStart line n else n + 1) = 0 ∨
      jsNonSpace (line.getD
        ((if jsNonSpace (line.getD n ' ') = true then findWordStart line n else n + 1) - 1) ' ') =
        false
    by_cases h : jsNonSpace (line.getD n ' ') = true
    · rw [if_pos h]
      exact ih
    · rw [if_neg h]
      right
      simpa using h

/-- Every character of the token extracted by the word-start scan is
non-whitespace. -/
theorem token_nonSpace (line : List Char) (n : Nat) (hn : n ≤ line.length) :
    ∀ ch ∈ (line.take n).drop (findWordStart line n), jsNonSpace ch = true := by
  intro ch hch
  obtain ⟨j, hj, hEq⟩ := List.mem_iff_getElem.mp hch
  have hws := findWordStart_le line n
  have hlen : ((line.take n).drop (findWordStart line n)).length = n - findWordStart line n := by
    simp [List.length_drop, List.length_take, Nat.min_eq_left hn]
  have hjn : findWordStart line n + j < n := by
    rw [hlen] at hj
    omega
  have hjlen : findWordStart line n + j < line.length := lt_of_lt_of_le hjn hn
  rw [List.getElem_drop, List.getElem_take] at hEq
  have h2 := findWordStart_nonSpace line n (findWordStart line n + j) (by omega) hjn
  rwa [List.getD_eq_getElem line ' ' hjlen, hEq] at h2

/-- C5: `onTrigger` returns nothing exactly when the left-scanned token is
shorter than the configured minimum trigger length or the `[[` count in
the line prefix before the cursor strictly exceeds the `]]` count;
otherwise it returns exactly the token's start and end columns with the
token as the query — a maximal run of non-whitespace characters ending at
the cursor column. -/
theorem onTrigger_spec (line : List Char) (cursorPos minLen : Nat)
    (hcur : cursorPos ≤ line.length) :
    (onTrigger line cursorPos minLen = none ↔
      ((line.take cursorPos).drop (findWordStart line cursorPos)).length < minLen ∨
        countDouble ']' (line.take cursorPos) < countDouble '[' (line.take cursorPos)) ∧
      ∀ info, onTrigger line cursorPos minLen = some info →
        info.startCh = findWordStart line cursorPos ∧
        info.endCh = cursorPos ∧
        info.query = (line.take cursorPos).drop info.startCh ∧
        (∀ ch ∈ info.query, jsNonSpace ch = true) ∧
        (info.startCh = 0 ∨ jsNonSpace (line.getD (info.startCh - 1) ' ') = false) := by
  have hdef : onTrigger line cursorPos minLen =
      (if ((line.take cursorPos).drop (findWordStart line cursorPos)).length < minLen then
        none
      else if countDouble ']' (line.take cursorPos) < countDouble '[' (line.take cursorPos) then
        none
      else
        some ⟨findWordStart line cursorPos, cursorPos,
          (line.take cursorPos).drop (findWordStart line cursorPos)⟩) := rfl
  constructor
  · rw [hdef]
    by_cases h1 : ((line.take cursorPos).drop (findWordStart line cursorPos)).length < minLen
    · rw [if_pos h1]
      exact iff_of_true rfl (Or.inl h1)
    · rw [if_neg h1]
      by_cases h2 : countDouble ']' (line.take cursorPos) < countDouble '[' (line.take cursorPos)
      · rw [if_pos h2]
        exact iff_of_true rfl (Or.inr h2)
      · rw [if_neg h2]
        exact iff_of_false (by simp) (by rintro (h | h) <;> contradiction)
  · intro info hinfo
    rw [hdef] at hinfo
    by_cases h1 : ((line.take cursorPos).drop (findWordStart line cursorPos)).length < minLen
    · rw [if_pos h1] at hinfo
      exact absurd hinfo (by simp)
    · rw [if_neg h1] at hinfo
      by_cases h2 : countDouble ']' (line.take cursorPos) < countDouble '[' (line.take cursorPos)
      · rw [if_pos h2] at hinfo
        exact absurd hinfo (by simp)
      · rw [if_neg h2] at hinfo
        cases hinfo
        refine ⟨rfl, rfl, rfl, ?_, ?_⟩
        · exact token_nonSpace line cursorPos hcur
        · exact findWordStart_maximal line cursorPos

/-- Witness for C5 at the spec's `[[Existing|` example: with the cursor at
column 11, just after the `|`, the token is long enough and yet the
unbalanced `[[` suppresses the trigger. -/
theorem onTrigger_spec_witness :
    11 ≤ ("[[Existing|".toList).length ∧
      onTrigger "[[Existing|".toList 11 2 = none :=
  ⟨by decide, by
    have h := onTrigger_spec "[[Existing|".toList 11 2 (by decide)
    exact h.1.mpr (Or.inr (by decide))⟩

/-- C1: applying the rename handler for a markdown note removes the old
identity and inserts the new identity in one handler step: immediately
afterwards, a lookup of the renamed note's new path finds the file (never
a missing entry), a lookup of the distinct old path no longer answers,
and no other key of the index is affected. -/
theorem handleRename_atomic (idx : TitleIndex) (file : NoteFile) (oldPath : String)
    (hmd : file.extension = "md") :
    handleRename idx file oldPath file.path = some file ∧
      (oldPath ≠ file.path → handleRename idx file oldPath oldPath = none) ∧
      ∀ p, p ≠ file.path → p ≠ oldPath → handleRename idx file oldPath p = idx p := by
  unfold handleRename mapSet mapDelete
  rw [if_pos hmd]
  refine ⟨by simp, fun hne => ?_, fun p h1 h2 => ?_⟩
  · simp [hne]
  · simp [h1, h2]

/-- Witness for C1: renaming the only note of a one-note index. -/
theorem handleRename_atomic_witness :
    (NoteFile.mk "b.md" ['b'] "md" 0 none).extension = "md" ∧
      (handleRename (fun p => if p = "a.md" then some (NoteFile.mk "a.md" ['a'] "md" 0 none) else none)
          (NoteFile.mk "b.md" ['b'] "md" 0 none) "a.md" (NoteFile.mk "b.md" ['b'] "md" 0 none).path =
          some (NoteFile.mk "b.md" ['b'] "md" 0 none) ∧
        ("a.md" ≠ (NoteFile.mk "b.md" ['b'] "md" 0 none).path →
          handleRename (fun p => if p = "a.md" then some (NoteFile.mk "a.md" ['a'] "md" 0 none) else none)
            (NoteFile.mk "b.md" ['b'] "md" 0 none) "a.md" "a.md" = none) ∧
        ∀ p, p ≠ (NoteFile.mk "b.md" ['b'] "md" 0 none).path → p ≠ "a.md" →
          handleRename (fun p => if p = "a.md" then some (NoteFile.mk "a.md" ['a'] "md" 0 none) else none)
            (NoteFile.mk "b.md" ['b'] "md" 0 none) "a.md" p =
            (fun p => if p = "a.md" then some (NoteFile.mk "a.md" ['a'] "md" 0 none) else none) p) :=
  ⟨rfl, handleRename_atomic _ _ _ rfl⟩

/-- Iterating `trackNoteSelection` adds the number of selections to an
existing record's count. -/
theorem trackMany_count_some (filePath : String) :
    ∀ (ts : List ℚ) (stats : UsageStats) (c : Nat) (lu : ℚ),
      stats filePath = some ⟨c, lu⟩ →
      ∃ lu2, trackMany stats filePath ts filePath = some ⟨c + ts.length, lu2⟩ := by
  intro ts
  induction ts with
  | nil =>
    intro stats c lu h
    exact ⟨lu, by simpa [trackMany] using h⟩
  | cons t ts ih =>
    intro stats c lu h
    have hstep : trackNoteSelection stats filePath t filePath = some ⟨c + 1, t⟩ := by
      simp [trackNoteSelection, statsSet, h]
    obtain ⟨lu2, h2⟩ := ih (trackNoteSelection stats filePath t) (c + 1) t hstep
    refine ⟨lu2, ?_⟩
    have harith : c + 1 + ts.length = c + (ts.length + 1) := by omega
    simpa [trackMany, harith] using h2

/-- C6: with no pre-existing record, the first selection lazily creates
the record with count zero and increments it to one, and after any
non-empty sequence of selections the stored count equals exactly the
number of selections. -/
theorem trackNoteSelection_monotonic (stats : UsageStats) (filePath : String)
    (habs : stats filePath = none) :
    (∀ t, trackNoteSelection stats filePath t filePath = some ⟨0 + 1, t⟩) ∧
      ∀ ts : List ℚ, ts ≠ [] →
        ∃ lu, trackMany stats filePath ts filePath = some ⟨ts.length, lu⟩ := by
  constructor
  · intro t
    simp [trackNoteSelection, statsSet, habs]
  · intro ts hne
    match ts with
    | t :: ts2 =>
      have hstep : trackNoteSelection stats filePath t filePath = some ⟨0 + 1, t⟩ := by
        simp [trackNoteSelection, statsSet, habs]
      obtain ⟨lu, h⟩ := trackMany_count_some filePath ts2 (trackNoteSelection stats filePath t) (0 + 1) t hstep
      refine ⟨lu, ?_⟩
      have harith : 0 + 1 + ts2.length = ts2.length + 1 := by omega
      simpa [trackMany, harith] using h

/-- Witness for C6: three selections of a fresh path store count three,
and the first selection stores count one. -/
theorem trackNoteSelection_monotonic_witness :
    (fun _ => none : UsageStats) "n.md" = none ∧
      ((∀ t, trackNoteSelection (fun _ => none : UsageStats) "n.md" t "n.md" = some ⟨0 + 1, t⟩) ∧
        ∀ ts : List ℚ, ts ≠ [] →
          ∃ lu, trackMany (fun _ => none : UsageStats) "n.md" ts "n.md" = some ⟨ts.length, lu⟩) :=
  ⟨rfl, trackNoteSelection_monotonic _ _ rfl⟩

/-- C9: rekeying the usage stats on a rename moves the record verbatim to
the new path, removes it from the old path, leaves every other record
unchanged, and does nothing when no record exists under the old path. -/
theorem updateUsageStatsPath_frame (stats : UsageStats) (oldPath newPath : String)
    (hne : oldPath ≠ newPath) :
    (stats oldPath = none → updateUsageStatsPath stats oldPath newPath = stats) ∧
      ∀ r, stats oldPath = some r →
        updateUsageStatsPath stats oldPath newPath newPath = some r ∧
          updateUsageStatsPath stats oldPath newPath oldPath = none ∧
          ∀ p, p ≠ oldPath → p ≠ newPath →
            updateUsageStatsPath stats oldPath newPath p = stats p := by
  constructor
  · intro h
    simp [updateUsageStatsPath, h]
  · intro r h
    simp only [updateUsageStatsPath, h]
    refine ⟨?_, ?_, ?_⟩
    · simp [statsDelete, statsSet, Ne.symm hne]
    · simp [statsDelete]
    · intro p h1 h2
      simp [statsDelete, statsSet, h1, h2]

/-- Witness for C9: rekeying a two-record store from `a.md` to `b.md`. -/
theorem updateUsageStatsPath_frame_witness :
    ("a.md" : String) ≠ "b.md" ∧
      (((fun p => if p = "a.md" then some (UsageRecord.mk 3 5) else
          if p = "c.md" then some (UsageRecord.mk 7 9) else none) "a.md" = none →
        updateUsageStatsPath
          (fun p => if p = "a.md" then some (UsageRecord.mk 3 5) else
            if p = "c.md" then some (UsageRecord.mk 7 9) else none) "a.md" "b.md" =
          (fun p => if p = "a.md" then some (UsageRecord.mk 3 5) else
            if p = "c.md" then some (UsageRecord.mk 7 9) else none)) ∧
        ∀ r, (fun p => if p = "a.md" then some (UsageRecord.mk 3 5) else
            if p = "c.md" then some (UsageRecord.mk 7 9) else none) "a.md" = some r →
          updateUsageStatsPath
            (fun p => if p = "a.md" then some (UsageRecord.mk 3 5) else
              if p = "c.md" then some (UsageRecord.mk 7 9) else none) "a.md" "b.md" "b.md" = some r ∧
            updateUsageStatsPath
              (fun p => if p = "a.md" then some (UsageRecord.mk 3 5) else
                if p = "c.md" then some (UsageRecord.mk 7 9) else none) "a.md" "b.md" "a.md" = none ∧
            ∀ p, p ≠ "a.md" → p ≠ "b.md" →
              updateUsageStatsPath
                (fun p => if p = "a.md" then some (UsageRecord.mk 3 5) else
                  if p = "c.md" then some (UsageRecord.mk 7 9) else none) "a.md" "b.md" p =
                (fun p => if p = "a.md" then some (UsageRecord.mk 3 5) else
                  if p = "c.md" then some (UsageRecord.mk 7 9) else none) p) :=
  ⟨by decide,
    updateUsageStatsPath_frame
      (fun p => if p = "a.md" then some (UsageRecord.mk 3 5) else
        if p = "c.md" then some (UsageRecord.mk 7 9) else none)
      "a.md" "b.md" (by decide)⟩

/-! Helper lemmas about the scoring factors. -/

/-- The decay factor never falls below one half, whatever the threshold. -/
theorem half_le_decayFactorOf (stats : Option UsageRecord) (now th : ℚ) :
    1 / 2 ≤ decayFactorOf stats now th := by
  rcases stats with _ | r
  · norm_num [decayFactorOf]
  · show (1 : ℚ) / 2 ≤
      (if 0 < r.lastUsed then
        if th < now - r.lastUsed then
          1 - min ((now - r.lastUsed - th) / th) 1 * (1 / 2)
        else 1
      else 1)
    by_cases h1 : 0 < r.lastUsed
    · rw [if_pos h1]
      by_cases h2 : th < now - r.lastUsed
      · rw [if_pos h2]
        have hmin : min ((now - r.lastUsed - th) / th) 1 ≤ 1 := min_le_right _ _
        nlinarith
      · rw [if_neg h2]
        norm_num
    · rw [if_neg h1]
      norm_num

/-- With a positive newness-boost window and a non-negative strength, the
newness boost is at least one. -/
theorem one_le_newnessBoostOf (file : NoteFile) (now : ℚ) (s : AutoLinkSettings)
    (hstr : 0 ≤ s.newnessBoostStrength) (hbd : 0 < s.newnessBoostDays) :
    1 ≤ newnessBoostOf file now s := by
  unfold newnessBoostOf
  by_cases h1 : s.enableNewnessBoost ∧ file.ctime ≠ 0
  · rw [if_pos h1]
    by_cases h2 : (now - file.ctime) / dayInMs ≤ s.newnessBoostDays
    · rw [if_pos h2]
      have hfrac : ((now - file.ctime) / dayInMs) / s.newnessBoostDays ≤ 1 :=
        (div_le_one hbd).mpr h2
      nlinarith
    · rw [if_neg h2]
  · rw [if_neg h1]

/-- The effective base score is strictly positive for every input: a
positive base score is kept, anything else becomes the `0.01` floor. -/
theorem effectiveBaseOf_pos (stats : Option UsageRecord) (now : ℚ) (maxCount : Nat)
    (maxRecency : ℚ) (s : AutoLinkSettings) :
    0 < effectiveBaseOf stats now maxCount maxRecency s := by
  unfold effectiveBaseOf
  by_cases h : 0 < baseScoreOf stats now maxCount maxRecency s
  · rwa [if_pos h]
  · rw [if_neg h]
    norm_num

/-- C4: for a record with a prior selection and a positive decay
threshold, the decay factor lies in `[1/2, 1]`, equals `1` whenever the
age since use is at most the threshold, and consequently the final score
is never less than half of its pre-decay base
(effective base times newness boost). -/
theorem decayFactor_bounds (r : UsageRecord) (now decayThreshold : ℚ)
    (hlu : 0 < r.lastUsed) (hth : 0 < decayThreshold) :
    1 / 2 ≤ decayFactorOf (some r) now decayThreshold ∧
      decayFactorOf (some r) now decayThreshold ≤ 1 ∧
      (now - r.lastUsed ≤ decayThreshold → decayFactorOf (some r) now decayThreshold = 1) ∧
      ∀ (file : NoteFile) (maxCount : Nat) (maxRecency : ℚ) (s : AutoLinkSettings),
        0 ≤ newnessBoostOf file now s →
        effectiveBaseOf (some r) now maxCount maxRecency s * newnessBoostOf file now s * (1 / 2) ≤
          calculateScore (some r) file now maxCount maxRecency decayThreshold s := by
  have hdef : decayFactorOf (some r) now decayThreshold =
      if 0 < r.lastUsed then
        if decayThreshold < now - r.lastUsed then
          1 - min ((now - r.lastUsed - decayThreshold) / decayThreshold) 1 * (1 / 2)
        else 1
      else 1 := rfl
  refine ⟨half_le_decayFactorOf (some r) now decayThreshold, ?_, ?_, ?_⟩
  · rw [hdef, if_pos hlu]
    by_cases h2 : decayThreshold < now - r.lastUsed
    · rw [if_pos h2]
      have hp : 0 < now - r.lastUsed - decayThreshold := by linarith
      have hpos : 0 < (now - r.lastUsed - decayThreshold) / decayThreshold :=
        div_pos hp hth
      have hmin : 0 ≤ min ((now - r.lastUsed - decayThreshold) / decayThreshold) 1 :=
        le_min (le_of_lt hpos) (by norm_num)
      nlinarith
    · rw [if_neg h2]
  · intro hage
    rw [hdef, if_pos hlu, if_neg (by linarith)]
  · intro file maxCount maxRecency s hnb
    unfold calculateScore
    have hd := half_le_decayFactorOf (some r) now decayThreshold
    have he := effectiveBaseOf_pos (some r) now maxCount maxRecency s
    nlinarith [mul_le_mul_of_nonneg_left hd
      (mul_nonneg (le_of_lt he) hnb)]

/-- Witness for C4: a record last used 100 ms before `now`, with a decay
threshold of 50 ms, decays to exactly one half. -/
theorem decayFactor_bounds_witness :
    (0 : ℚ) < (UsageRecord.mk 5 100).lastUsed ∧ (0 : ℚ) < 50 ∧
      (1 / 2 ≤ decayFactorOf (some (UsageRecord.mk 5 100)) 200 50 ∧
        decayFactorOf (some (UsageRecord.mk 5 100)) 200 50 ≤ 1 ∧
        ((200 : ℚ) - (UsageRecord.mk 5 100).lastUsed ≤ 50 →
          decayFactorOf (some (UsageRecord.mk 5 100)) 200 50 = 1) ∧
        ∀ (file : NoteFile) (maxCount : Nat) (maxRecency : ℚ) (s : AutoLinkSettings),
          0 ≤ newnessBoostOf file 200 s →
          effectiveBaseOf (some (UsageRecord.mk 5 100)) 200 maxCount maxRecency s *
              newnessBoostOf file 200 s * (1 / 2) ≤
            calculateScore (some (UsageRecord.mk 5 100)) file 200 maxCount maxRecency 50 s) :=
  ⟨by decide, by decide, decayFactor_bounds (UsageRecord.mk 5 100) 200 50 (by decide) (by decide)⟩

/-- C10 (amended): with a non-negative `maxRecency`, a recency weight in
`[0, 100]`, a non-negative newness-boost strength, and a positive
newness-boost window, the score of every candidate is strictly positive:
the effective base is positive, the decay factor is at least one half,
and the newness boost is at least one. -/
theorem calculateScore_pos (stats : Option UsageRecord) (file : NoteFile) (now : ℚ)
    (maxCount : Nat) (maxRecency decayThreshold : ℚ) (s : AutoLinkSettings)
    (hmr : 0 ≤ maxRecency) (hw0 : 0 ≤ s.recencyWeight) (hw1 : s.recencyWeight ≤ 100)
    (hstr : 0 ≤ s.newnessBoostStrength) (hbd : 0 < s.newnessBoostDays) :
    0 < calculateScore stats file now maxCount maxRecency decayThreshold s := by
  unfold calculateScore
  have he := effectiveBaseOf_pos stats now maxCount maxRecency s
  have hd : (0 : ℚ) < decayFactorOf stats now decayThreshold :=
    lt_of_lt_of_le (by norm_num) (half_le_decayFactorOf stats now decayThreshold)
  have hn : (0 : ℚ) < newnessBoostOf file now s :=
    lt_of_lt_of_le (by norm_num) (one_le_newnessBoostOf file now s hstr hbd)
  exact mul_pos (mul_pos he hd) hn

/-- Witness for C10 (amended) at a never-selected note with default-like
settings. -/
theorem calculateScore_pos_witness :
    (0 : ℚ) ≤ 0 ∧ (0 : ℚ) ≤ 30 ∧ (30 : ℚ) ≤ 100 ∧ (0 : ℚ) ≤ 1 ∧ (0 : ℚ) < 30 ∧
      0 < calculateScore none (NoteFile.mk "n.md" ['n'] "md" 0 none) 0 0 0 0
        (AutoLinkSettings.mk 2 10 false false true false true true 30 90 true 30 1) :=
  ⟨by decide, by decide, by decide, by decide, by decide,
    calculateScore_pos none (NoteFile.mk "n.md" ['n'] "md" 0 none) 0 0 0 0
      (AutoLinkSettings.mk 2 10 false false true false true true 30 90 true 30 1)
      (by decide) (by decide) (by decide) (by decide) (by decide)⟩

/-- C10 fails as literally stated: nothing in its quantification keeps the
newness-boost window positive, and with `newnessBoostDays = -1` and a
creation time in the future the boost factor turns negative, making the
score of a never-selected note negative. The other constraints the claim
lists (non-negative maxima, recency weight in `[0, 100]`, non-negative
strength) all hold at this input. -/
theorem calculateScore_pos_counterexample :
    (0 : ℚ) ≤ 0 ∧
      (0 : ℚ) ≤ (AutoLinkSettings.mk 2 10 false false true false true true 30 90 true (-1) 1).recencyWeight ∧
      (AutoLinkSettings.mk 2 10 false false true false true true 30 90 true (-1) 1).recencyWeight ≤ 100 ∧
      (0 : ℚ) ≤ (AutoLinkSettings.mk 2 10 false false true false true true 30 90 true (-1) 1).newnessBoostStrength ∧
      ¬ (0 < calculateScore none (NoteFile.mk "f.md" ['f'] "md" (10 * dayInMs) none) 0 0 0 0
          (AutoLinkSettings.mk 2 10 false false true false true true 30 90 true (-1) 1)) := by
  refine ⟨by norm_num, by norm_num, by norm_num, by norm_num, ?_⟩
  norm_num [calculateScore, effectiveBaseOf, baseScoreOf, frequencyScoreOf,
    recencyScoreOf, decayFactorOf, newnessBoostOf, dayInMs]

/-- C8: with newness boosting enabled, a 30-day window and strength one
half, a never-used note created at the current instant scores exactly
`0.015 = 0.01 * 1.5` (the `0.01` effective-base floor times the `1.5`
newness boost), an otherwise identical note created 40 days ago scores
exactly `0.01`, and so the new note ranks strictly higher. -/
theorem newness_boost_example (s : AutoLinkSettings) (now : ℚ) (fNew fOld : NoteFile)
    (maxCount : Nat) (maxRecency decayThreshold : ℚ)
    (hen : s.enableNewnessBoost = true)
    (hdays : s.newnessBoostDays = 30)
    (hstr : s.newnessBoostStrength = 1 / 2)
    (hnow : now ≠ 0)
    (hctN : fNew.ctime = now)
    (hctO : fOld.ctime = now - 40 * dayInMs) :
    calculateScore none fNew now maxCount maxRecency decayThreshold s = 3 / 200 ∧
      calculateScore none fOld now maxCount maxRecency decayThreshold s = 1 / 100 ∧
      (1 : ℚ) / 100 < 3 / 200 := by
  have hbase : baseScoreOf none now maxCount maxRecency s = 0 := by
    unfold baseScoreOf
    have h1 : frequencyScoreOf none maxCount = 0 := rfl
    have h2 : recencyScoreOf none now maxRecency s = 0 := rfl
    rw [h1, h2]
    split <;> ring
  have heff : effectiveBaseOf none now maxCount maxRecency s = 1 / 100 := by
    unfold effectiveBaseOf
    rw [hbase]
    norm_num
  have hdecay : decayFactorOf none now decayThreshold = 1 := rfl
  have hnbN : newnessBoostOf fNew now s = 3 / 2 := by
    unfold newnessBoostOf
    rw [hctN, hdays, hstr, if_pos (And.intro hen hnow)]
    simp only [sub_self, zero_div]
    norm_num
  have hnbO : newnessBoostOf fOld now s = 1 := by
    unfold newnessBoostOf
    rw [hctO, hdays]
    by_cases hc : now - 40 * dayInMs = 0
    · rw [if_neg]
      intro h
      exact h.2 hc
    · rw [if_pos (And.intro hen hc)]
      have harg : now - (now - 40 * dayInMs) = 40 * dayInMs := by ring
      rw [harg]
      have hday : (40 : ℚ) * dayInMs / dayInMs = 40 := by norm_num [dayInMs]
      rw [hday, if_neg (by norm_num)]
  refine ⟨?_, ?_, by norm_num⟩
  · unfold calculateScore
    rw [heff, hdecay, hnbN]
    norm_num
  · unfold calculateScore
    rw [heff, hdecay, hnbO]
    norm_num

/-- Witness for C8: `now = 1`, a note created at time 1 and a note created
40 days earlier, with the literal settings of the example. -/
theorem newness_boost_example_witness :
    (AutoLinkSettings.mk 2 10 false false true false true true 30 90 true 30 (1 / 2)).enableNewnessBoost = true ∧
      (AutoLinkSettings.mk 2 10 false false true false true true 30 90 true 30 (1 / 2)).newnessBoostDays = 30 ∧
      (AutoLinkSettings.mk 2 10 false false true false true true 30 90 true 30 (1 / 2)).newnessBoostStrength = 1 / 2 ∧
      (1 : ℚ) ≠ 0 ∧
      (NoteFile.mk "n.md" ['n'] "md" 1 none).ctime = 1 ∧
      (NoteFile.mk "o.md" ['o'] "md" (1 - 40 * dayInMs) none).ctime = 1 - 40 * dayInMs ∧
      (calculateScore none (NoteFile.mk "n.md" ['n'] "md" 1 none) 1 0 0 0
          (AutoLinkSettings.mk 2 10 false false true false true true 30 90 true 30 (1 / 2)) = 3 / 200 ∧
        calculateScore none (NoteFile.mk "o.md" ['o'] "md" (1 - 40 * dayInMs) none) 1 0 0 0
          (AutoLinkSettings.mk 2 10 false false true false true true 30 90 true 30 (1 / 2)) = 1 / 100 ∧
        (1 : ℚ) / 100 < 3 / 200) :=
  ⟨rfl, rfl, rfl, by decide, rfl, rfl,
    newness_boost_example
      (AutoLinkSettings.mk 2 10 false false true false true true 30 90 true 30 (1 / 2)) 1
      (NoteFile.mk "n.md" ['n'] "md" 1 none)
      (NoteFile.mk "o.md" ['o'] "md" (1 - 40 * dayInMs) none) 0 0 0
      rfl rfl rfl (by decide) rfl rfl⟩

/-- C3 fails as universally stated: with the recency boost enabled at
weight 100, the frequency term is multiplied by zero, so two candidates
with identical recency scores, decay factors and newness boosts but
selection counts 2 and 1 receive equal scores, not strictly ordered
ones. All hypotheses of the claim hold at this input. -/
theorem frequency_order_counterexample :
    recencyScoreOf (some (UsageRecord.mk 2 1000)) 1000 1
        (AutoLinkSettings.mk 2 10 false false true false true true 100 90 false 30 0) =
      recencyScoreOf (some (UsageRecord.mk 1 1000)) 1000 1
        (AutoLinkSettings.mk 2 10 false false true false true true 100 90 false 30 0) ∧
      decayFactorOf (some (UsageRecord.mk 2 1000)) 1000 1000 =
        decayFactorOf (some (UsageRecord.mk 1 1000)) 1000 1000 ∧
      newnessBoostOf (NoteFile.mk "a.md" ['a'] "md" 0 none) 1000
          (AutoLinkSettings.mk 2 10 false false true false true true 100 90 false 30 0) =
        newnessBoostOf (NoteFile.mk "b.md" ['b'] "md" 0 none) 1000
          (AutoLinkSettings.mk 2 10 false false true false true true 100 90 false 30 0) ∧
      (UsageRecord.mk 1 1000).count < (UsageRecord.mk 2 1000).count ∧
      0 < (2 : Nat) ∧
      ¬ (calculateScore (some (UsageRecord.mk 1 1000)) (NoteFile.mk "b.md" ['b'] "md" 0 none)
            1000 2 1 1000
            (AutoLinkSettings.mk 2 10 false false true false true true 100 90 false 30 0) <
          calculateScore (some (UsageRecord.mk 2 1000)) (NoteFile.mk "a.md" ['a'] "md" 0 none)
            1000 2 1 1000
            (AutoLinkSettings.mk 2 10 false false true false true true 100 90 false 30 0)) := by
  refine ⟨rfl, rfl, rfl, by decide, by decide, ?_⟩
  norm_num [calculateScore, effectiveBaseOf, baseScoreOf, frequencyScoreOf,
    recencyScoreOf, decayFactorOf, newnessBoostOf]

/-- C3 (amended): frequency ordering holds under the claim's hypotheses
provided additionally that the settings are within the documented
validated ranges with recencyWeight strictly below 100 (so the frequency
term keeps positive weight), that the lower count is at least one (so the
`0.01` floor for zero base scores does not interfere), and that the
shared recency score is non-negative. -/
theorem frequency_order_preserving (rA rB : UsageRecord) (fA fB : NoteFile)
    (now maxRecency decayThreshold : ℚ) (maxCount : Nat) (s : AutoLinkSettings)
    (hmax : 0 < maxCount)
    (hcB : 1 ≤ rB.count) (hc : rB.count < rA.count)
    (hrec : recencyScoreOf (some rA) now maxRecency s =
      recencyScoreOf (some rB) now maxRecency s)
    (hrecnn : 0 ≤ recencyScoreOf (some rB) now maxRecency s)
    (hdec : decayFactorOf (some rA) now decayThreshold =
      decayFactorOf (some rB) now decayThreshold)
    (hnew : newnessBoostOf fA now s = newnessBoostOf fB now s)
    (hw0 : 0 ≤ s.recencyWeight) (hw1 : s.recencyWeight < 100)
    (hstr : 0 ≤ s.newnessBoostStrength) (hbd : 0 < s.newnessBoostDays) :
    calculateScore (some rB) fB now maxCount maxRecency decayThreshold s <
      calculateScore (some rA) fA now maxCount maxRecency decayThreshold s := by
  have hmc : (0 : ℚ) < (maxCount : ℚ) := by exact_mod_cast hmax
  have hfB : frequencyScoreOf (some rB) maxCount = (rB.count : ℚ) / (maxCount : ℚ) := by
    show (if 0 < maxCount then (rB.count : ℚ) / (maxCount : ℚ) else 0) =
      (rB.count : ℚ) / (maxCount : ℚ)
    rw [if_pos hmax]
  have hfA : frequencyScoreOf (some rA) maxCount = (rA.count : ℚ) / (maxCount : ℚ) := by
    show (if 0 < maxCount then (rA.count : ℚ) / (maxCount : ℚ) else 0) =
      (rA.count : ℚ) / (maxCount : ℚ)
    rw [if_pos hmax]
  have hcB2 : (0 : ℚ) < (rB.count : ℚ) := by
    have : (1 : ℚ) ≤ (rB.count : ℚ) := by exact_mod_cast hcB
    linarith
  have hc2 : (rB.count : ℚ) < (rA.count : ℚ) := by exact_mod_cast hc
  have hfBpos : 0 < frequencyScoreOf (some rB) maxCount := by
    rw [hfB]
    exact div_pos hcB2 hmc
  have hflt : frequencyScoreOf (some rB) maxCount < frequencyScoreOf (some rA) maxCount := by
    rw [hfA, hfB]
    gcongr
  have hbB : 0 < baseScoreOf (some rB) now maxCount maxRecency s ∧
      baseScoreOf (some rB) now maxCount maxRecency s <
        baseScoreOf (some rA) now maxCount maxRecency s := by
    unfold baseScoreOf
    by_cases hrb : s.enableRecencyBoost = true
    · rw [if_pos hrb, if_pos hrb, hrec]
      have hwlt : s.recencyWeight / 100 < 1 := (div_lt_one (by norm_num)).mpr hw1
      have hwnn : 0 ≤ s.recencyWeight / 100 := by positivity
      constructor
      · nlinarith
      · nlinarith
    · rw [if_neg hrb, if_neg hrb]
      exact ⟨hfBpos, hflt⟩
  have heB : effectiveBaseOf (some rB) now maxCount maxRecency s =
      baseScoreOf (some rB) now maxCount maxRecency s := by
    unfold effectiveBaseOf
    rw [if_pos hbB.1]
  have heA : effectiveBaseOf (some rA) now maxCount maxRecency s =
      baseScoreOf (some rA) now maxCount maxRecency s := by
    unfold effectiveBaseOf
    rw [if_pos (lt_trans hbB.1 hbB.2)]
  have hd : (0 : ℚ) < decayFactorOf (some rB) now decayThreshold :=
    lt_of_lt_of_le (by norm_num) (half_le_decayFactorOf (some rB) now decayThreshold)
  have hn : (0 : ℚ) < newnessBoostOf fB now s :=
    lt_of_lt_of_le (by norm_num) (one_le_newnessBoostOf fB now s hstr hbd)
  unfold calculateScore
  rw [heA, heB, hdec, hnew]
  exact mul_lt_mul_of_pos_right (mul_lt_mul_of_pos_right hbB.2 hd) hn

/-- Witness for C3 (amended): counts 2 versus 1 with equal (trivial)
recency, decay and newness factors and the frequency weight at 70%. -/
theorem frequency_order_preserving_witness :
    0 < (2 : Nat) ∧ 1 ≤ (UsageRecord.mk 1 0).count ∧
      (UsageRecord.mk 1 0).count < (UsageRecord.mk 2 0).count ∧
      calculateScore (some (UsageRecord.mk 1 0)) (NoteFile.mk "b.md" ['b'] "md" 0 none)
          5 2 0 7 (AutoLinkSettings.mk 2 10 false false true false true false 30 90 false 30 0) <
        calculateScore (some (UsageRecord.mk 2 0)) (NoteFile.mk "a.md" ['a'] "md" 0 none)
          5 2 0 7 (AutoLinkSettings.mk 2 10 false false true false true false 30 90 false 30 0) :=
  ⟨by decide, by decide, by decide,
    frequency_order_preserving (UsageRecord.mk 2 0) (UsageRecord.mk 1 0)
      (NoteFile.mk "a.md" ['a'] "md" 0 none) (NoteFile.mk "b.md" ['b'] "md" 0 none)
      5 0 7 2 (AutoLinkSettings.mk 2 10 false false true false true false 30 90 false 30 0)
      (by decide) (by decide) (by decide) rfl (by decide) rfl rfl
      (by decide) (by decide) (by decide) (by decide)⟩

/-- Every candidate emitted by the collection loop passes the configured
match test on its folded display text. -/
theorem mem_collectSuggestions_matches (files : List NoteFile) (query : List Char)
    (s : AutoLinkSettings) (sg : Suggestion)
    (h : sg ∈ collectSuggestions files query s) :
    matchText s query (foldCase s sg.title) = true := by
  unfold collectSuggestions at h
  rw [List.mem_flatMap] at h
  obtain ⟨file, _, hmem⟩ := h
  rw [List.mem_append] at hmem
  rcases hmem with hmem | hmem
  · by_cases hm : matchText s query (foldCase s file.basename) = true
    · rw [if_pos hm] at hmem
      rw [List.mem_singleton] at hmem
      subst hmem
      exact hm
    · rw [if_neg hm] at hmem
      simp at hmem
  · unfold aliasCandidates at hmem
    by_cases hg : (s.includeAliases && aliasesTruthy file.aliases) = true
    · rw [if_pos hg] at hmem
      rw [List.mem_filterMap] at hmem
      obtain ⟨v, _, hv⟩ := hmem
      cases v with
      | str a =>
        dsimp only at hv
        by_cases hm : matchText s query (foldCase s a) = true
        · rw [if_pos hm] at hv
          cases hv
          exact hm
        · rw [if_neg hm] at hv
          simp at hv
      | nonStr =>
        simp at hv
    · rw [if_neg hg] at hmem
      simp at hmem

/-- C2: every candidate returned by `getSuggestions` — before and after
ranking and truncation — has a folded display text (title or alias) that
satisfies the configured match predicate against the folded query:
start-anchored when `matchStart` is set, substring otherwise. There are
no false positives. -/
theorem getSuggestions_no_false_positives (files : List NoteFile) (usage : UsageStats)
    (rawQuery : List Char) (now : ℚ) (s : AutoLinkSettings) (sg : Suggestion)
    (hmem : sg ∈ getSuggestions files usage rawQuery now s) :
    matchText s (foldCase s rawQuery) (foldCase s sg.title) = true := by
  have hdef : getSuggestions files usage rawQuery now s =
      (if s.enableUsageRanking then
        sortByScoreDesc
          (fun sg => calculateScore (usage sg.file.path) sg.file now
            (computeMaxCount usage (collectSuggestions files (foldCase s rawQuery) s))
            (computeMaxRecency usage (collectSuggestions files (foldCase s rawQuery) s) now)
            (s.decayDays * dayInMs) s)
          (collectSuggestions files (foldCase s rawQuery) s)
      else collectSuggestions files (foldCase s rawQuery) s).take s.maxSuggestions := rfl
  rw [hdef] at hmem
  have h1 := List.mem_of_mem_take hmem
  by_cases hr : s.enableUsageRanking = true
  · rw [if_pos hr] at h1
    unfold sortByScoreDesc at h1
    rw [List.mem_mergeSort] at h1
    exact mem_collectSuggestions_matches files (foldCase s rawQuery) s sg h1
  · rw [if_neg hr] at h1
    exact mem_collectSuggestions_matches files (foldCase s rawQuery) s sg h1

/-- Witness for C2: the query `AI` against a vault with one note titled
`Artificial Intelligence` carrying aliases `AI` and `ML` returns the
alias candidate, whose folded display text passes the substring test. -/
theorem getSuggestions_no_false_positives_witness :
    Suggestion.mk "AI".toList
        (NoteFile.mk "ai.md" "Artificial Intelligence".toList "md" 0
          (some (FmAliases.arr [FmValue.str "AI".toList, FmValue.str "ML".toList]))) ∈
      getSuggestions
        [NoteFile.mk "ai.md" "Artificial Intelligence".toList "md" 0
          (some (FmAliases.arr [FmValue.str "AI".toList, FmValue.str "ML".toList]))]
        (fun _ => none) "AI".toList 0
        (AutoLinkSettings.mk 2 10 false false true false false false 30 90 false 30 0) ∧
      matchText (AutoLinkSettings.mk 2 10 false false true false false false 30 90 false 30 0)
        (foldCase (AutoLinkSettings.mk 2 10 false false true false false false 30 90 false 30 0)
          "AI".toList)
        (foldCase (AutoLinkSettings.mk 2 10 false false true false false false 30 90 false 30 0)
          "AI".toList) =
        true :=
  ⟨by decide,
    getSuggestions_no_false_positives
      [NoteFile.mk "ai.md" "Artificial Intelligence".toList "md" 0
        (some (FmAliases.arr [FmValue.str "AI".toList, FmValue.str "ML".toList]))]
      (fun _ => none) "AI".toList 0
      (AutoLinkSettings.mk 2 10 false false true false false false 30 90 false 30 0)
      (Suggestion.mk "AI".toList
        (NoteFile.mk "ai.md" "Artificial Intelligence".toList "md" 0
          (some (FmAliases.arr [FmValue.str "AI".toList, FmValue.str "ML".toList]))))
      (by decide)⟩

/-- C7 fails as universally stated: the code guards the alias loop with
the JS truthiness of the aliases field, and a single empty-string alias
is falsy, so an empty-string alias that does satisfy the match predicate
(query also empty, substring mode) yields no candidate, neither among the
collected candidates nor in the final suggestion list. -/
theorem alias_candidate_counterexample :
    (AutoLinkSettings.mk 0 10 false false true false false false 30 90 false 30 0).includeAliases =
        true ∧
      FmValue.str [] ∈
        aliasValuesList (NoteFile.mk "e.md" "Existing".toList "md" 0
          (some (FmAliases.single (FmValue.str [])))).aliases ∧
      matchText (AutoLinkSettings.mk 0 10 false false true false false false 30 90 false 30 0)
        (foldCase (AutoLinkSettings.mk 0 10 false false true false false false 30 90 false 30 0) [])
        (foldCase (AutoLinkSettings.mk 0 10 false false true false false false 30 90 false 30 0) []) =
        true ∧
      Suggestion.mk []
          (NoteFile.mk "e.md" "Existing".toList "md" 0
            (some (FmAliases.single (FmValue.str [])))) ∉
        collectSuggestions
          [NoteFile.mk "e.md" "Existing".toList "md" 0 (some (FmAliases.single (FmValue.str [])))]
          (foldCase (AutoLinkSettings.mk 0 10 false false true false false false 30 90 false 30 0) [])
          (AutoLinkSettings.mk 0 10 false false true false false false 30 90 false 30 0) ∧
      Suggestion.mk []
          (NoteFile.mk "e.md" "Existing".toList "md" 0
            (some (FmAliases.single (FmValue.str [])))) ∉
        getSuggestions
          [NoteFile.mk "e.md" "Existing".toList "md" 0 (some (FmAliases.single (FmValue.str [])))]
          (fun _ => none) [] 0
          (AutoLinkSettings.mk 0 10 false false true false false false 30 90 false 30 0) := by
  decide

/-- C7 (amended): with alias inclusion enabled, every string alias of an
indexed note whose folded form satisfies the match predicate yields one
collected candidate whose display text is the alias itself — not the
note's title — bound to the same target file, provided the aliases field
passes the code's truthiness guard (in particular it is not a single
empty string). -/
theorem alias_candidate_emitted (files : List NoteFile) (query : List Char)
    (s : AutoLinkSettings) (file : NoteFile) (a : List Char)
    (hfile : file ∈ files)
    (hinc : s.includeAliases = true)
    (htruthy : aliasesTruthy file.aliases = true)
    (hmem : FmValue.str a ∈ aliasValuesList file.aliases)
    (hmatch : matchText s query (foldCase s a) = true) :
    Suggestion.mk a file ∈ collectSuggestions files query s := by
  unfold collectSuggestions
  rw [List.mem_flatMap]
  refine ⟨file, hfile, ?_⟩
  rw [List.mem_append]
  right
  unfold aliasCandidates
  rw [if_pos (by rw [hinc, htruthy]; rfl)]
  rw [List.mem_filterMap]
  refine ⟨FmValue.str a, hmem, ?_⟩
  dsimp only
  rw [if_pos hmatch]

/-- Witness for C7 (amended) at the spec's example: query `AI`, a note
titled `Artificial Intelligence` with aliases `AI` and `ML`, yields the
candidate displaying `AI` and targeting that note. -/
theorem alias_candidate_emitted_witness :
    NoteFile.mk "ai.md" "Artificial Intelligence".toList "md" 0
        (some (FmAliases.arr [FmValue.str "AI".toList, FmValue.str "ML".toList])) ∈
      [NoteFile.mk "ai.md" "Artificial Intelligence".toList "md" 0
        (some (FmAliases.arr [FmValue.str "AI".toList, FmValue.str "ML".toList]))] ∧
      (AutoLinkSettings.mk 2 10 false false true false false false 30 90 false 30 0).includeAliases =
        true ∧
      aliasesTruthy (NoteFile.mk "ai.md" "Artificial Intelligence".toList "md" 0
        (some (FmAliases.arr [FmValue.str "AI".toList, FmValue.str "ML".toList]))).aliases = true ∧
      FmValue.str "AI".toList ∈
        aliasValuesList (NoteFile.mk "ai.md" "Artificial Intelligence".toList "md" 0
          (some (FmAliases.arr [FmValue.str "AI".toList, FmValue.str "ML".toList]))).aliases ∧
      matchText (AutoLinkSettings.mk 2 10 false false true false false false 30 90 false 30 0)
        (foldChars "AI".toList)
        (foldCase (AutoLinkSettings.mk 2 10 false false true false false false 30 90 false 30 0)
          "AI".toList) = true ∧
      Suggestion.mk "AI".toList
          (NoteFile.mk "ai.md" "Artificial Intelligence".toList "md" 0
            (some (FmAliases.arr [FmValue.str "AI".toList, FmValue.str "ML".toList]))) ∈
        collectSuggestions
          [NoteFile.mk "ai.md" "Artificial Intelligence".toList "md" 0
            (some (FmAliases.arr [FmValue.str "AI".toList, FmValue.str "ML".toList]))]
          (foldChars "AI".toList)
          (AutoLinkSettings.mk 2 10 false false true false false false 30 90 false 30 0) :=
  ⟨by decide, rfl, by decide, by decide, by decide,
    alias_candidate_emitted
      [NoteFile.mk "ai.md" "Artificial Intelligence".toList "md" 0
        (some (FmAliases.arr [FmValue.str "AI".toList, FmValue.str "ML".toList]))]
      (foldChars "AI".toList)
      (AutoLinkSettings.mk 2 10 false false true false false false 30 90 false 30 0)
      (NoteFile.mk "ai.md" "Artificial Intelligence".toList "md" 0
        (some (FmAliases.arr [FmValue.str "AI".toList, FmValue.str "ML".toList])))
      "AI".toList (by decide) rfl (by decide) (by decide) (by decide)⟩
